import Mathlib

/-!
Verification of the Modbus RTU sniffer (`scripts/sniff_modbus.py`):
CRC engine, frame verification, frame decoding, frame assembly, and
shutdown flushing, embedded shallowly over `List Nat` byte sequences.
-/

namespace SniffModbus

set_option maxRecDepth 100000

/-! ### CRC engine (`calc_crc16`) -/

/-- One inner-loop iteration of `calc_crc16`: if the low bit of the
accumulator is set, shift right and XOR with 0xA001, else shift right. -/
def crcRound (crc : Nat) : Nat :=
  if crc &&& 1 = 1 then (crc >>> 1) ^^^ 0xA001 else crc >>> 1

/-- The `for _ in range(n)` loop of `calc_crc16` applying `crcRound`. -/
def crcBits : Nat → Nat → Nat
  | 0, crc => crc
  | n + 1, crc => crcBits n (crcRound crc)

/-- Body of the outer loop of `calc_crc16`: `crc ^= byte` then 8 rounds. -/
def crcByte (crc b : Nat) : Nat := crcBits 8 (crc ^^^ b)

/-- `calc_crc16` from `scripts/sniff_modbus.py`: accumulator starts at
0xFFFF, each byte is folded in via `crcByte`. -/
def calc_crc16 (data : List Nat) : Nat := data.foldl crcByte 0xFFFF

/-- Reference byte step as worded by the spec: the byte is XORed into the
LOW BYTE of the accumulator, then the 8 shift rounds run. -/
def crcByteRef (crc b : Nat) : Nat :=
  crcBits 8 (2 ^ 8 * (crc / 2 ^ 8) + ((crc % 2 ^ 8) ^^^ b))

/-- Reference CRC algorithm as worded by the spec. -/
def crc16Ref (data : List Nat) : Nat := data.foldl crcByteRef 0xFFFF

/-! ### CRC verification (`verify_crc`) -/

/-- `verify_crc` from `scripts/sniff_modbus.py`: frames shorter than 4
bytes fail closed; otherwise the CRC over all but the last two bytes is
compared with the little-endian 16-bit value in the trailer. -/
def verify_crc (frame : List Nat) : Bool :=
  if frame.length < 4 then false
  else
    let data := frame.take (frame.length - 2)
    let received := frame.getD (frame.length - 2) 0 |||
      (frame.getD (frame.length - 1) 0) <<< 8
    received == calc_crc16 data

/-! ### Frame decoder (`decode_frame`) -/

/-- Function-code table `FUNC_CODES`, with the `.get(func, "Unknown")`
default applied at the lookup site. -/
def FUNC_CODES (f : Nat) : String :=
  if f = 1 then "Read Coils"
  else if f = 2 then "Read Discrete Inputs"
  else if f = 3 then "Read Holding Registers"
  else if f = 4 then "Read Input Registers"
  else if f = 5 then "Write Single Coil"
  else if f = 6 then "Write Single Register"
  else if f = 15 then "Write Multiple Coils"
  else if f = 16 then "Write Multiple Registers"
  else "Unknown"

/-- Exception-code table `EXCEPTION_CODES`, with the
`.get(exc_code, "Unknown")` default applied at the lookup site. -/
def EXCEPTION_CODES (c : Nat) : String :=
  if c = 1 then "Illegal Function"
  else if c = 2 then "Illegal Data Address"
  else if c = 3 then "Illegal Data Value"
  else if c = 4 then "Slave Device Failure"
  else if c = 5 then "Acknowledge"
  else if c = 6 then "Slave Device Busy"
  else if c = 8 then "Memory Parity Error"
  else "Unknown"

/-- Reinterpretation of a 16-bit unsigned value as signed, as in the
response branch: subtract 0x10000 when the value is at least 0x8000. -/
def toSigned16 (v : Nat) : Int :=
  if 0x8000 ≤ v then (v : Int) - 0x10000 else (v : Int)

/-- The register-value loop of the response branch: every complete pair
of data bytes is combined big-endian and sign-extended; a trailing
unpaired byte yields no value. -/
def parseValues : List Nat → List Int
  | [] => []
  | [_] => []
  | b0 :: b1 :: rest => toSigned16 ((b0 <<< 8) ||| b1) :: parseValues rest

/-- Temperature annotation attached to a function-4 response console
line. `tempC` carries the scaled value as an exact rational. -/
inductive TempInfo where
  | noInfo : TempInfo
  | sensorError : TempInfo
  | modbusError : TempInfo
  | tempC (c : ℚ) : TempInfo
  | outOfRange : TempInfo
deriving DecidableEq

/-- The temperature-interpretation block: empty value list means no
annotation, otherwise the first value is classified. -/
def tempInfoOf : List Int → TempInfo
  | [] => TempInfo.noInfo
  | v :: _ =>
      if v = 0 then TempInfo.sensorError
      else if v = -1 then TempInfo.modbusError
      else if -400 ≤ v ∧ v ≤ 1250 then TempInfo.tempC ((v : ℚ) / 10)
      else TempInfo.outOfRange

/-- One line written to the log file by `decode_frame`. -/
inductive LogRec where
  | incompleteRec (hx : List Nat)
  | rawBad (hx : List Nat)
  | raw (hx : List Nat)
  | exceptionRec (addr func exc : Nat) (name : String)
  | request (addr func reg count : Nat) (crcOk : Bool)
  | response4 (addr func bytecount : Nat) (values : List Int) (crcOk : Bool)
  | response3 (addr func bytecount : Nat) (dataBytes : List Nat) (crcOk : Bool)
  | generic (addr func len : Nat) (hx : List Nat) (crcOk : Bool)
deriving DecidableEq

/-- One line printed to the console by `decode_frame`. -/
inductive ConLine where
  | incompleteLine (len : Nat) (hx : List Nat)
  | exceptionLine (addr : Nat) (name : String) (exc : Nat)
  | requestLine (addr func : Nat) (name : String) (reg count : Nat) (crcOk : Bool)
  | response4Line (addr func bytecount : Nat) (values : List Int) (temp : TempInfo) (crcOk : Bool)
  | response3Line (addr func bytecount : Nat) (dataBytes : List Nat) (crcOk : Bool)
  | genericLine (addr func : Nat) (name : String) (len : Nat) (crcOk : Bool)
deriving DecidableEq

/-- Observable output of one `decode_frame` call: console lines printed
and log lines written, each in order. -/
structure DecodeOut where
  console : List ConLine
  log : List LogRec
deriving DecidableEq

/-- The classification part of `decode_frame` (the code after the raw
log write): exception check first, then dispatch on function code and
frame length. Returns the console line and the classified log line. -/
def classify (frame : List Nat) (crcOk : Bool) : ConLine × LogRec :=
  let addr := frame.getD 0 0
  let rawFunc := frame.getD 1 0
  let isExc := 0x80 ≤ rawFunc
  let func := if isExc then rawFunc - 0x80 else rawFunc
  let funcName := FUNC_CODES func
  if isExc then
    let exc := if 2 < frame.length then frame.getD 2 0 else 0
    let excName := EXCEPTION_CODES exc
    (ConLine.exceptionLine addr excName exc, LogRec.exceptionRec addr func exc excName)
  else if func = 4 then
    if frame.length = 8 then
      let reg := (frame.getD 2 0) <<< 8 ||| frame.getD 3 0
      let count := (frame.getD 4 0) <<< 8 ||| frame.getD 5 0
      (ConLine.requestLine addr func funcName reg count crcOk,
       LogRec.request addr func reg count crcOk)
    else
      let bytecount := frame.getD 2 0
      let dataBytes := (frame.drop 3).take bytecount
      let values := parseValues dataBytes
      (ConLine.response4Line addr func bytecount values (tempInfoOf values) crcOk,
       LogRec.response4 addr func bytecount values crcOk)
  else if func = 3 then
    if frame.length = 8 then
      let reg := (frame.getD 2 0) <<< 8 ||| frame.getD 3 0
      let count := (frame.getD 4 0) <<< 8 ||| frame.getD 5 0
      (ConLine.requestLine addr func funcName reg count crcOk,
       LogRec.request addr func reg count crcOk)
    else
      let bytecount := frame.getD 2 0
      let dataBytes := (frame.drop 3).take bytecount
      (ConLine.response3Line addr func bytecount dataBytes crcOk,
       LogRec.response3 addr func bytecount dataBytes crcOk)
  else
    (ConLine.genericLine addr func funcName frame.length crcOk,
     LogRec.generic addr func frame.length frame crcOk)

/-- `decode_frame` from `scripts/sniff_modbus.py`: frames below 4 bytes
yield only the INCOMPLETE record; with the bad-CRC console filter
enabled (`show_bad_crc = false`) a CRC-invalid frame yields only a RAW
CRC:BAD log line; otherwise the raw line is logged and the frame is
classified. -/
def decode_frame (frame : List Nat) (showBadCrc : Bool) : DecodeOut :=
  if frame.length < 4 then
    { console := if showBadCrc then [ConLine.incompleteLine frame.length frame] else [],
      log := [LogRec.incompleteRec frame] }
  else
    let crcOk := verify_crc frame
    if !crcOk && !showBadCrc then
      { console := [], log := [LogRec.rawBad frame] }
    else
      let p := classify frame crcOk
      { console := [p.1], log := [LogRec.raw frame, p.2] }

/-- A log record is a classified-decode record (as opposed to the raw
hex-dump, suppressed-raw, or incomplete lines). -/
def isClassifiedRec : LogRec → Bool
  | LogRec.exceptionRec _ _ _ _ => true
  | LogRec.request _ _ _ _ _ => true
  | LogRec.response4 _ _ _ _ _ => true
  | LogRec.response3 _ _ _ _ _ => true
  | LogRec.generic _ _ _ _ _ => true
  | _ => false

/-- Reference decoding of response data bytes as worded by the spec:
each complete pair of subsequent bytes is read big-endian and
reinterpreted as a signed 16-bit integer by subtracting 0x10000 when
the unsigned value is at least 0x8000. -/
def signedPairsRef : List Nat → List Int
  | hi :: lo :: rest =>
      (if 0x8000 ≤ 256 * hi + lo then ((256 * hi + lo : Nat) : Int) - 0x10000
       else ((256 * hi + lo : Nat) : Int)) :: signedPairsRef rest
  | _ => []

/-! ### Frame assembler (capture loop of `main`) -/

/-- The inter-frame silence threshold `FRAME_GAP_MS` in milliseconds. -/
def FRAME_GAP_MS : ℚ := 6

/-- Mutable state of the capture loop: the pending frame buffer, the
timestamp of the most recently appended chunk (0 initially), and the
frames emitted so far in order. -/
structure AsmState where
  buffer : List Nat
  lastByteTime : ℚ
  emitted : List (List Nat)
deriving DecidableEq

/-- Initial capture-loop state: empty buffer, `last_byte_time = 0`. -/
def asmInit : AsmState := { buffer := [], lastByteTime := 0, emitted := [] }

/-- One delivery of available bytes to the capture loop at a given time:
if the buffer is non-empty, the last-byte time positive, and the gap
strictly exceeds `FRAME_GAP_MS`, the buffer is flushed as a completed
frame before the new chunk is appended; either way the chunk is
appended and the last-byte time updated. -/
def asmStep (st : AsmState) (d : List Nat × ℚ) : AsmState :=
  if st.buffer ≠ [] ∧ 0 < st.lastByteTime ∧ FRAME_GAP_MS < d.2 - st.lastByteTime then
    { buffer := d.1, lastByteTime := d.2, emitted := st.emitted ++ [st.buffer] }
  else
    { buffer := st.buffer ++ d.1, lastByteTime := d.2, emitted := st.emitted }

/-- Final flush: a non-empty buffer is emitted as one last frame (the
idle branch or the shutdown handler). -/
def flushFrames (st : AsmState) : List (List Nat) :=
  if st.buffer = [] then st.emitted else st.emitted ++ [st.buffer]

/-- All completed frames produced by feeding the deliveries through the
capture loop and flushing at the end. -/
def runAssembler (ds : List (List Nat × ℚ)) : List (List Nat) :=
  flushFrames (ds.foldl asmStep asmInit)

/-! ### Shutdown sequence (`KeyboardInterrupt` handler and `finally`) -/

/-- Externally visible actions of the shutdown path. -/
inductive ShutAct where
  | emit (frame : List Nat)
  | closeSerial
deriving DecidableEq

/-- Shutdown path of `main`: the `except KeyboardInterrupt` handler
decodes a non-empty pending buffer as one final frame, then the
`finally` block closes the serial port. -/
def shutdownSeq (buffer : List Nat) : List ShutAct :=
  (if buffer = [] then [] else [ShutAct.emit buffer]) ++ [ShutAct.closeSerial]

/-! ### Bitwise helper lemmas -/

/-- XORing a byte `b < 256` into a natural number touches only its low
byte: `crc ^^^ b` decomposes as high part plus XORed low byte. -/
theorem xor_low_byte (crc b : Nat) (hb : b < 2 ^ 8) :
    crc ^^^ b = 2 ^ 8 * (crc / 2 ^ 8) + ((crc % 2 ^ 8) ^^^ b) := by
  have hr : (crc % 2 ^ 8) ^^^ b < 2 ^ 8 :=
    Nat.xor_lt_two_pow (Nat.mod_lt _ (by norm_num)) hb
  apply Nat.eq_of_testBit_eq
  intro j
  rw [Nat.testBit_xor, Nat.testBit_mul_pow_two_add _ hr]
  by_cases hj : j < 8
  · rw [if_pos hj, Nat.testBit_xor, Nat.testBit_mod_two_pow]
    simp [hj]
  · have hbj : b.testBit j = false :=
      Nat.testBit_lt_two_pow (lt_of_lt_of_le hb (Nat.pow_le_pow_right (by norm_num) (by omega)))
    have : crc / 2 ^ 8 = crc >>> 8 := (Nat.shiftRight_eq_div_pow crc 8).symm
    rw [if_neg hj, this, Nat.testBit_shiftRight, hbj, Bool.xor_false]
    congr 1
    omega

/-- Combining a high part shifted left by 8 with a low byte via `|||`
is plain addition. -/
theorem shiftLeft_or_low (q r : Nat) (hr : r < 2 ^ 8) :
    (q <<< 8) ||| r = 2 ^ 8 * q + r := by
  rw [Nat.shiftLeft_eq, Nat.mul_comm, Nat.mul_add_lt_is_or hr]

/-- The code's byte step and the spec's low-byte step coincide for
bytes below 256. -/
theorem crcByte_eq_ref (crc b : Nat) (h : b < 256) :
    crcByte crc b = crcByteRef crc b := by
  unfold crcByte crcByteRef
  rw [xor_low_byte crc b (by simpa using h)]

/-- Folding the code's byte step equals folding the spec's byte step
from any accumulator, for byte inputs. -/
theorem crc_foldl_congr (l : List Nat) :
    ∀ a, (∀ b ∈ l, b < 256) → l.foldl crcByte a = l.foldl crcByteRef a := by
  induction l with
  | nil => intro a _; rfl
  | cons y ys ih =>
      intro a h
      simp only [List.foldl_cons]
      rw [crcByte_eq_ref a y (h y (List.mem_cons_self y ys))]
      exact ih _ (fun b hm => h b (List.mem_cons_of_mem y hm))

/-- C1: the CRC engine agrees with the spec's reference algorithm on
every sequence of bytes (each < 256): initialize to 0xFFFF, XOR each
byte into the low byte of the accumulator, run 8 conditional
shift-and-XOR-0xA001 rounds per byte, return the accumulator. -/
theorem calc_crc16_matches_reference (data : List Nat)
    (hb : ∀ b ∈ data, b < 256) : calc_crc16 data = crc16Ref data :=
  crc_foldl_congr data 0xFFFF hb

/-- Witness for C1 at the concrete request payload [1, 4, 0, 0, 0, 1]. -/
theorem calc_crc16_matches_reference_witness :
    calc_crc16 [1, 4, 0, 0, 0, 1] = crc16Ref [1, 4, 0, 0, 0, 1] :=
  calc_crc16_matches_reference [1, 4, 0, 0, 0, 1] (by decide)

/-- C2: verification fails closed below 4 bytes, and for frames of
length ≥ 4 succeeds exactly when the CRC computed over all but the last
two bytes equals the little-endian 16-bit trailer value. -/
theorem verify_crc_characterization (b : List Nat) :
    (b.length < 4 → verify_crc b = false) ∧
    (4 ≤ b.length → (verify_crc b = true ↔
      calc_crc16 (b.take (b.length - 2)) =
        (b.getD (b.length - 2) 0 ||| (b.getD (b.length - 1) 0) <<< 8))) := by
  constructor
  · intro h
    simp [verify_crc, h]
  · intro h
    have h4 : ¬ b.length < 4 := by omega
    simp only [verify_crc, if_neg h4, beq_iff_eq]
    exact eq_comm

/-- Witness for C2: a genuine frame verifies, a short one fails closed. -/
theorem verify_crc_characterization_witness :
    verify_crc [1, 2, 3] = false ∧ verify_crc [1, 4, 0, 0, 0, 1, 0x31, 0xCA] = true := by
  constructor
  · exact (verify_crc_characterization [1, 2, 3]).1 (by decide)
  · exact ((verify_crc_characterization [1, 4, 0, 0, 0, 1, 0x31, 0xCA]).2 (by decide)).mpr
      (by decide)

/-! ### Decoder helper lemmas -/

/-- With the console filter disabled, a frame of sufficient length is
always raw-logged and then classified. -/
theorem decode_frame_true_eq (f : List Nat) (h : ¬ f.length < 4) :
    decode_frame f true =
      { console := [(classify f (verify_crc f)).1],
        log := [LogRec.raw f, (classify f (verify_crc f)).2] } := by
  unfold decode_frame
  rw [if_neg h]
  simp

/-- The classification step always produces a classified log record. -/
theorem classify_snd_classified (f : List Nat) (c : Bool) :
    isClassifiedRec (classify f c).2 = true := by
  unfold classify
  dsimp only
  split
  · rfl
  · split
    · split
      · rfl
      · rfl
    · split
      · split
        · rfl
        · rfl
      · rfl

/-- An in-range `getD` on a list of bytes is a byte. -/
theorem getD_lt_256 (f : List Nat) (i : Nat) (h : i < f.length)
    (hb : ∀ b ∈ f, b < 256) : f.getD i 0 < 256 := by
  rw [List.getD_eq_getElem?_getD, List.getElem?_eq_getElem h]
  exact hb _ (List.getElem_mem h)

/-- Exception branch of `classify`: high bit of the function byte set. -/
theorem classify_exc (f : List Nat) (c : Bool) (h4 : 4 ≤ f.length)
    (hf : 0x80 ≤ f.getD 1 0) :
    classify f c =
      (ConLine.exceptionLine (f.getD 0 0) (EXCEPTION_CODES (f.getD 2 0)) (f.getD 2 0),
       LogRec.exceptionRec (f.getD 0 0) (f.getD 1 0 - 0x80) (f.getD 2 0)
         (EXCEPTION_CODES (f.getD 2 0))) := by
  unfold classify
  dsimp only
  rw [if_pos hf, if_pos hf, if_pos (show 2 < f.length by omega)]

/-- Request branch of `classify`: function byte 4, length exactly 8. -/
theorem classify_req4 (f : List Nat) (c : Bool) (h8 : f.length = 8)
    (hf : f.getD 1 0 = 4) (h3 : f.getD 3 0 < 256) (h5 : f.getD 5 0 < 256) :
    classify f c =
      (ConLine.requestLine (f.getD 0 0) 4 "Read Input Registers"
         (256 * f.getD 2 0 + f.getD 3 0) (256 * f.getD 4 0 + f.getD 5 0) c,
       LogRec.request (f.getD 0 0) 4 (256 * f.getD 2 0 + f.getD 3 0)
         (256 * f.getD 4 0 + f.getD 5 0) c) := by
  unfold classify
  dsimp only
  rw [hf]
  rw [show f.getD 2 0 <<< 8 ||| f.getD 3 0 = 256 * f.getD 2 0 + f.getD 3 0 from by
        rw [shiftLeft_or_low _ _ (by simpa using h3)]; norm_num]
  rw [show f.getD 4 0 <<< 8 ||| f.getD 5 0 = 256 * f.getD 4 0 + f.getD 5 0 from by
        rw [shiftLeft_or_low _ _ (by simpa using h5)]; norm_num]
  simp [h8, FUNC_CODES]

/-- Response branch of `classify`: function byte 4, length not 8. -/
theorem classify_resp4 (f : List Nat) (c : Bool) (h8 : f.length ≠ 8)
    (hf : f.getD 1 0 = 4) :
    classify f c =
      (ConLine.response4Line (f.getD 0 0) 4 (f.getD 2 0)
         (parseValues ((f.drop 3).take (f.getD 2 0)))
         (tempInfoOf (parseValues ((f.drop 3).take (f.getD 2 0)))) c,
       LogRec.response4 (f.getD 0 0) 4 (f.getD 2 0)
         (parseValues ((f.drop 3).take (f.getD 2 0))) c) := by
  unfold classify
  dsimp only
  rw [hf]
  simp [h8]

/-- On byte inputs the code's register-value loop agrees with the
spec's big-endian signed-pair reading. -/
theorem parseValues_eq_ref : ∀ l : List Nat, (∀ b ∈ l, b < 256) →
    parseValues l = signedPairsRef l
  | [], _ => rfl
  | [_], _ => rfl
  | b0 :: b1 :: rest, h => by
      have h1 : b1 < 256 := h b1 (by simp)
      simp only [parseValues, signedPairsRef]
      rw [shiftLeft_or_low _ _ (by simpa using h1)]
      congr 1
      exact parseValues_eq_ref rest (fun b hb => h b (by simp [hb]))

/-- The register-value loop yields one value per complete byte pair. -/
theorem parseValues_length : ∀ d : List Nat, (parseValues d).length = d.length / 2
  | [] => rfl
  | [_] => by simp [parseValues]
  | _ :: _ :: rest => by
      simp only [parseValues, List.length_cons, parseValues_length rest]
      omega

/-- C5: a function-4 frame of length exactly 8 is classified as a
request whose start register is bytes 2-3 read big-endian and whose
count is bytes 4-5 read big-endian, with the checksum result attached. -/
theorem decode_request_func4 (f : List Nat) (h8 : f.length = 8)
    (hf : f.getD 1 0 = 4) (hb : ∀ b ∈ f, b < 256) :
    decode_frame f true =
      { console := [ConLine.requestLine (f.getD 0 0) 4 "Read Input Registers"
          (256 * f.getD 2 0 + f.getD 3 0) (256 * f.getD 4 0 + f.getD 5 0) (verify_crc f)],
        log := [LogRec.raw f, LogRec.request (f.getD 0 0) 4
          (256 * f.getD 2 0 + f.getD 3 0) (256 * f.getD 4 0 + f.getD 5 0) (verify_crc f)] } := by
  rw [decode_frame_true_eq f (by omega)]
  rw [classify_req4 f _ h8 hf (getD_lt_256 f 3 (by omega) hb) (getD_lt_256 f 5 (by omega) hb)]

/-- Witness for C5: the known request [1, 4, 0, 0, 0, 1] with its
correct CRC trailer decodes to request, addr=1, func=4, start=0,
count=1, checksum valid. -/
theorem decode_request_func4_witness :
    decode_frame [1, 4, 0, 0, 0, 1, 0x31, 0xCA] true =
      { console := [ConLine.requestLine 1 4 "Read Input Registers" 0 1 true],
        log := [LogRec.raw [1, 4, 0, 0, 0, 1, 0x31, 0xCA], LogRec.request 1 4 0 1 true] } := by
  have h := decode_request_func4 [1, 4, 0, 0, 0, 1, 0x31, 0xCA]
    (by decide) (by decide) (by decide)
  rw [h]
  decide

/-- C6: a function-4 frame of length ≥ 4 and ≠ 8 is classified as a
response with byte count frame[2] and values read from the complete
big-endian signed byte pairs of the data slice; the console annotation
derived from the first value follows the sensor-error / protocol-error
/ scaled-tenth / out-of-range rule. -/
theorem decode_response_func4 (f : List Nat) (h4 : 4 ≤ f.length) (h8 : f.length ≠ 8)
    (hf : f.getD 1 0 = 4) (hb : ∀ b ∈ f, b < 256) :
    decode_frame f true =
      { console := [ConLine.response4Line (f.getD 0 0) 4 (f.getD 2 0)
          (signedPairsRef ((f.drop 3).take (f.getD 2 0)))
          (tempInfoOf (signedPairsRef ((f.drop 3).take (f.getD 2 0)))) (verify_crc f)],
        log := [LogRec.raw f, LogRec.response4 (f.getD 0 0) 4 (f.getD 2 0)
          (signedPairsRef ((f.drop 3).take (f.getD 2 0))) (verify_crc f)] } ∧
    (∀ (v : Int) (vs : List Int), tempInfoOf (v :: vs) =
      if v = 0 then TempInfo.sensorError
      else if v = -1 then TempInfo.modbusError
      else if -400 ≤ v ∧ v ≤ 1250 then TempInfo.tempC ((v : ℚ) / 10)
      else TempInfo.outOfRange) := by
  constructor
  · rw [decode_frame_true_eq f (by omega), classify_resp4 f _ h8 hf]
    rw [parseValues_eq_ref _ (fun b hbm =>
      hb b (List.mem_of_mem_drop (List.mem_of_mem_take hbm)))]
  · intro v vs
    rfl

/-- Witness for C6: raw register 250 is annotated 25.0, raw 0x0000 is a
sensor error, raw 0xFFFF is a protocol error (each with its valid CRC). -/
theorem decode_response_func4_witness :
    (decode_frame [1, 4, 2, 0, 250, 0x39, 0x73] true).console =
      [ConLine.response4Line 1 4 2 [250] (TempInfo.tempC 25) true] ∧
    (decode_frame [1, 4, 2, 0, 0, 0xB9, 0x30] true).console =
      [ConLine.response4Line 1 4 2 [0] TempInfo.sensorError true] ∧
    (decode_frame [1, 4, 2, 0xFF, 0xFF, 0xB8, 0x80] true).console =
      [ConLine.response4Line 1 4 2 [-1] TempInfo.modbusError true] := by
  refine ⟨?_, ?_, ?_⟩
  · rw [(decode_response_func4 [1, 4, 2, 0, 250, 0x39, 0x73]
      (by decide) (by decide) (by decide) (by decide)).1]
    have hv : signedPairsRef ((([1, 4, 2, 0, 250, 0x39, 0x73] : List Nat).drop 3).take
        (([1, 4, 2, 0, 250, 0x39, 0x73] : List Nat).getD 2 0)) = [250] := by decide
    have ht : tempInfoOf [250] = TempInfo.tempC 25 := by norm_num [tempInfoOf]
    rw [hv, ht]
    decide
  · rw [(decode_response_func4 [1, 4, 2, 0, 0, 0xB9, 0x30]
      (by decide) (by decide) (by decide) (by decide)).1]
    decide
  · rw [(decode_response_func4 [1, 4, 2, 0xFF, 0xFF, 0xB8, 0x80]
      (by decide) (by decide) (by decide) (by decide)).1]
    decide

/-- C7: a frame of length ≥ 4 whose function byte has the high bit set
is classified as an exception with the 0x80 bit cleared, the exception
code taken from frame[2] and mapped through the fixed table, unknown
codes mapping to Unknown. -/
theorem decode_exception_frames (f : List Nat) (h4 : 4 ≤ f.length)
    (hf : 0x80 ≤ f.getD 1 0) :
    decode_frame f true =
      { console := [ConLine.exceptionLine (f.getD 0 0) (EXCEPTION_CODES (f.getD 2 0)) (f.getD 2 0)],
        log := [LogRec.raw f, LogRec.exceptionRec (f.getD 0 0) (f.getD 1 0 - 0x80)
          (f.getD 2 0) (EXCEPTION_CODES (f.getD 2 0))] } ∧
    (∀ c : Nat, c ∉ ([1, 2, 3, 4, 5, 6, 8] : List Nat) → EXCEPTION_CODES c = "Unknown") := by
  constructor
  · rw [decode_frame_true_eq f (by omega), classify_exc f _ h4 hf]
  · intro c hc
    simp only [List.mem_cons, List.not_mem_nil, or_false, not_or] at hc
    obtain ⟨n1, n2, n3, n4, n5, n6, n8⟩ := hc
    simp [EXCEPTION_CODES, n1, n2, n3, n4, n5, n6, n8]

/-- Witness for C7: frame [1, 0x84, 2] with its CRC decodes to an
exception with function 4, code 2, name Illegal Data Address; code 9
maps to Unknown. -/
theorem decode_exception_frames_witness :
    decode_frame [1, 0x84, 2, 0xC2, 0xC1] true =
      { console := [ConLine.exceptionLine 1 "Illegal Data Address" 2],
        log := [LogRec.raw [1, 0x84, 2, 0xC2, 0xC1],
          LogRec.exceptionRec 1 4 2 "Illegal Data Address"] } ∧
    EXCEPTION_CODES 9 = "Unknown" := by
  have h := decode_exception_frames [1, 0x84, 2, 0xC2, 0xC1] (by decide) (by decide)
  refine ⟨?_, h.2 9 (by decide)⟩
  rw [h.1]
  decide

/-- C10: decoding is total (every call writes at least one log record),
the register-value loop consumes exactly the complete byte pairs, and a
declared byte count beyond the available data is clamped to the
actually-present bytes, so the value list has ⌊min(count, avail) / 2⌋
entries. -/
theorem decode_total_and_clamped :
    (∀ (f : List Nat) (sb : Bool), (decode_frame f sb).log ≠ []) ∧
    (∀ d : List Nat, (parseValues d).length = d.length / 2) ∧
    (∀ f : List Nat, 4 ≤ f.length → f.length ≠ 8 → f.getD 1 0 = 4 →
      ((f.drop 3).take (f.getD 2 0)).length = min (f.getD 2 0) (f.length - 3) ∧
      (decode_frame f true).log = [LogRec.raw f, LogRec.response4 (f.getD 0 0) 4 (f.getD 2 0)
        (parseValues ((f.drop 3).take (f.getD 2 0))) (verify_crc f)] ∧
      (parseValues ((f.drop 3).take (f.getD 2 0))).length =
        min (f.getD 2 0) (f.length - 3) / 2) := by
  refine ⟨?_, parseValues_length, ?_⟩
  · intro f sb
    unfold decode_frame
    dsimp only
    split
    · simp
    · split
      · simp
      · simp
  · intro f h4 h8 hf
    have hlen : ((f.drop 3).take (f.getD 2 0)).length = min (f.getD 2 0) (f.length - 3) := by
      simp [List.length_take, List.length_drop]
    refine ⟨hlen, ?_, ?_⟩
    · rw [decode_frame_true_eq f (by omega), classify_resp4 f _ h8 hf]
    · rw [parseValues_length, hlen]

/-- Witness for C10 at a frame whose declared byte count 255 exceeds
the 4 available data bytes: the slice clamps to 4 bytes and exactly 2
values are produced. -/
theorem decode_total_and_clamped_witness :
    (decode_frame [] true).log ≠ [] ∧
    (parseValues [9]).length = 1 / 2 ∧
    (([1, 4, 255, 0, 250, 57, 115].drop 3).take 255).length = min 255 4 ∧
    (decode_frame [1, 4, 255, 0, 250, 57, 115] true).log =
      [LogRec.raw [1, 4, 255, 0, 250, 57, 115],
       LogRec.response4 1 4 255 (parseValues [0, 250, 57, 115]) false] ∧
    (parseValues (([1, 4, 255, 0, 250, 57, 115].drop 3).take 255)).length = min 255 4 / 2 := by
  have h := decode_total_and_clamped
  have h3 := h.2.2 [1, 4, 255, 0, 250, 57, 115] (by decide) (by decide) (by decide)
  refine ⟨h.1 [] true, h.2.1 [9], by exact h3.1, ?_, by exact h3.2.2⟩
  rw [h3.2.1]
  decide

/-- C8: a frame shorter than 4 bytes is decoded, under either filter
setting, to exactly the INCOMPLETE log record (console echo only when
the filter is off); no checksum result and no classified fields appear. -/
theorem decode_incomplete_frames (f : List Nat) (sb : Bool) (h : f.length < 4) :
    decode_frame f sb =
      { console := if sb then [ConLine.incompleteLine f.length f] else [],
        log := [LogRec.incompleteRec f] } := by
  unfold decode_frame
  rw [if_pos h]

/-- Witness for C8 at the 3-byte frame [1, 2, 3]. -/
theorem decode_incomplete_frames_witness :
    decode_frame [1, 2, 3] true =
      { console := [ConLine.incompleteLine 3 [1, 2, 3]],
        log := [LogRec.incompleteRec [1, 2, 3]] } := by
  have h := decode_incomplete_frames [1, 2, 3] true (by decide)
  simpa using h

/-- C4 counterexample: with the suppression flag on, the CRC-invalid
4-byte frame [1, 4, 0, 0] is logged only as a RAW CRC:BAD line — no
classified-decode record reaches the log and nothing is displayed, so
a false checksum does suppress decoding in that flag setting. -/
theorem decode_suppression_counterexample :
    verify_crc [1, 4, 0, 0] = false ∧
    decode_frame [1, 4, 0, 0] false =
      { console := [], log := [LogRec.rawBad [1, 4, 0, 0]] } ∧
    ((decode_frame [1, 4, 0, 0] false).log.all fun r => !isClassifiedRec r) = true := by
  refine ⟨by decide, by decide, by decide⟩

/-- C4 amended: with the suppression flag off, a false checksum never
suppresses decoding — every frame of length ≥ 4 is raw-logged and gets
a classified-decode record; with the flag on, a CRC-invalid frame is
logged only as a RAW CRC:BAD line and its console display is dropped. -/
theorem decode_then_filter_amended (f : List Nat) (h : 4 ≤ f.length) :
    (∃ r, (decode_frame f true).log = [LogRec.raw f, r] ∧ isClassifiedRec r = true) ∧
    (verify_crc f = false →
      decode_frame f false = { console := [], log := [LogRec.rawBad f] }) := by
  constructor
  · refine ⟨(classify f (verify_crc f)).2, ?_, classify_snd_classified f _⟩
    rw [decode_frame_true_eq f (by omega)]
  · intro hbad
    unfold decode_frame
    rw [if_neg (by omega)]
    simp [hbad]

/-- Witness for the amended C4 at the CRC-invalid frame [1, 4, 0, 0]. -/
theorem decode_then_filter_amended_witness :
    (∃ r, (decode_frame [1, 4, 0, 0] true).log = [LogRec.raw [1, 4, 0, 0], r] ∧
      isClassifiedRec r = true) ∧
    (verify_crc [1, 4, 0, 0] = false →
      decode_frame [1, 4, 0, 0] false =
        { console := [], log := [LogRec.rawBad [1, 4, 0, 0]] }) :=
  decode_then_filter_amended [1, 4, 0, 0] (by decide)

/-- C9: flushing on shutdown with a non-empty pending buffer emits
exactly one final completed frame holding all buffered bytes, and the
shutdown path performs that emission before closing the serial port. -/
theorem shutdown_flushes_buffer :
    (∀ st : AsmState, st.buffer ≠ [] → flushFrames st = st.emitted ++ [st.buffer]) ∧
    (∀ buffer : List Nat, buffer ≠ [] →
      shutdownSeq buffer = [ShutAct.emit buffer, ShutAct.closeSerial]) := by
  constructor
  · intro st h
    unfold flushFrames
    rw [if_neg h]
  · intro buffer h
    unfold shutdownSeq
    rw [if_neg h]
    rfl

/-- Witness for C9 at a two-byte pending buffer. -/
theorem shutdown_flushes_buffer_witness :
    flushFrames { buffer := [7, 8], lastByteTime := 5, emitted := [[1]] } = [[1], [7, 8]] ∧
    shutdownSeq [7, 8] = [ShutAct.emit [7, 8], ShutAct.closeSerial] :=
  ⟨shutdown_flushes_buffer.1 _ (by decide), shutdown_flushes_buffer.2 [7, 8] (by decide)⟩

/-! ### Assembler lemmas -/

/-- Conservation invariant of the capture loop: emitted bytes plus the
pending buffer always equal the starting content plus every delivered
byte, in order. -/
theorem asm_flatten_invariant : ∀ (ds : List (List Nat × ℚ)) (st : AsmState),
    ((ds.foldl asmStep st).emitted).flatten ++ (ds.foldl asmStep st).buffer =
      st.emitted.flatten ++ (st.buffer ++ (ds.map Prod.fst).flatten)
  | [], st => by simp
  | d :: ds, st => by
      rw [List.foldl_cons, asm_flatten_invariant ds (asmStep st d)]
      unfold asmStep
      split
      · simp
      · simp

/-- If all gaps between consecutive deliveries are at or below the
threshold, the loop never emits: everything accumulates in the buffer. -/
theorem asm_no_emit : ∀ (ds : List (List Nat × ℚ)) (st : AsmState),
    List.Chain' (fun a b => b.2 - a.2 ≤ FRAME_GAP_MS) ds →
    (∀ d ∈ ds.head?,
      ¬(st.buffer ≠ [] ∧ 0 < st.lastByteTime ∧ FRAME_GAP_MS < d.2 - st.lastByteTime)) →
    (ds.foldl asmStep st).emitted = st.emitted ∧
      (ds.foldl asmStep st).buffer = st.buffer ++ (ds.map Prod.fst).flatten
  | [], st, _, _ => by simp
  | d :: ds, st, hch, hhd => by
      have hstep : asmStep st d =
          { buffer := st.buffer ++ d.1, lastByteTime := d.2, emitted := st.emitted } := by
        unfold asmStep
        rw [if_neg (hhd d (by simp))]
      have hch' := List.chain'_cons'.mp hch
      have ih := asm_no_emit ds (asmStep st d) hch'.2 (by
        intro q hq hcon
        exact absurd hcon.2.2 (not_lt.mpr (by
          have := hch'.1 q hq
          rw [hstep]
          exact this)))
      rw [List.foldl_cons, hstep]
      rw [hstep] at ih
      refine ⟨ih.1, ?_⟩
      rw [ih.2]
      simp

/-- C3: the capture loop partitions the delivered byte stream exactly
at the silence boundaries: every delivered byte lands in exactly one
emitted frame in order; with all inter-chunk gaps at or below the
threshold exactly one frame equal to the whole concatenation is
produced; two non-empty chunks separated by a gap strictly above the
threshold produce exactly the two original frames. -/
theorem assembler_boundary_partition :
    (∀ ds : List (List Nat × ℚ),
      (runAssembler ds).flatten = (ds.map Prod.fst).flatten) ∧
    (∀ ds : List (List Nat × ℚ),
      List.Chain' (fun a b => b.2 - a.2 ≤ FRAME_GAP_MS) ds →
      (ds.map Prod.fst).flatten ≠ [] →
      runAssembler ds = [(ds.map Prod.fst).flatten]) ∧
    (∀ (f1 f2 : List Nat) (t1 t2 : ℚ), f1 ≠ [] → f2 ≠ [] → 0 < t1 →
      FRAME_GAP_MS < t2 - t1 → runAssembler [(f1, t1), (f2, t2)] = [f1, f2]) := by
  refine ⟨?_, ?_, ?_⟩
  · intro ds
    unfold runAssembler flushFrames
    have h := asm_flatten_invariant ds asmInit
    rw [show asmInit.emitted = [] from rfl, show asmInit.buffer = [] from rfl] at h
    simp only [List.flatten_nil, List.nil_append] at h
    split
    · rename_i hb
      rw [hb] at h
      simpa using h
    · simpa using h
  · intro ds hch hne
    unfold runAssembler
    obtain ⟨he, hb⟩ := asm_no_emit ds asmInit hch (by
      intro d _ hcon
      exact hcon.1 rfl)
    rw [show asmInit.emitted = [] from rfl] at he
    rw [show asmInit.buffer = [] from rfl, List.nil_append] at hb
    unfold flushFrames
    rw [he, hb, if_neg hne]
    rfl
  · intro f1 f2 t1 t2 h1 h2 ht hgap
    have s1 : asmStep asmInit (f1, t1) =
        { buffer := f1, lastByteTime := t1, emitted := [] } := by
      unfold asmStep asmInit
      rw [if_neg (fun h => h.1 rfl)]
      simp
    have s2 : asmStep { buffer := f1, lastByteTime := t1, emitted := [] } (f2, t2) =
        { buffer := f2, lastByteTime := t2, emitted := [f1] } := by
      unfold asmStep
      rw [if_pos ⟨h1, ht, hgap⟩]
      rfl
    unfold runAssembler
    simp only [List.foldl_cons, List.foldl_nil]
    rw [s1, s2]
    unfold flushFrames
    rw [if_neg h2]
    rfl

/-- Witness for C3: two chunks 2 ms apart merge into one frame, two
chunks 9 ms apart split into two frames, and bytes are conserved. -/
theorem assembler_boundary_partition_witness :
    (runAssembler [([1, 2], 1), ([3], 3)]).flatten =
      ((([1, 2], 1) :: [(([3] : List Nat), (3 : ℚ))]).map Prod.fst).flatten ∧
    runAssembler [([1, 2], 1), ([3], 3)] = [[1, 2, 3]] ∧
    runAssembler [([1], 1), ([2], 10)] = [[1], [2]] := by
  refine ⟨assembler_boundary_partition.1 [([1, 2], 1), ([3], 3)], ?_, ?_⟩
  · have h := assembler_boundary_partition.2.1 [([1, 2], 1), ([3], 3)] (by
      refine List.chain'_cons'.mpr ⟨?_, List.chain'_singleton _⟩
      intro b hb
      simp only [List.head?_cons, Option.mem_some_iff] at hb
      subst hb
      norm_num [FRAME_GAP_MS]) (by decide)
    rw [h]
    decide
  · have h := assembler_boundary_partition.2.2 [1] [2] 1 10 (by decide) (by decide)
      (by norm_num) (by norm_num [FRAME_GAP_MS])
    rw [h]

end SniffModbus
